import Mathlib

/-
Shallow embedding of the `limited_sum` simulation engine
(`game.py`, `player.py`, `match.py`, `tournament.py`, `evolution.py`)
and proofs about the claims of its specification.

Conventions of the embedding:
* Python ints are `ℕ` (all quantities involved are nonnegative),
  Python floats are `ℚ` (the arithmetic performed is exact on the
  values that occur: payoff sums and divisions by round counts).
* Python lists are `List`, per-instance attributes are structure fields,
  `copy.deepcopy` is the identity on immutable Lean values.
* Calls to `random.random()` are modelled by explicitly passed draws.
-/

namespace LimitedSum

/-! ## game.py -/

/-- `ACTIONS = (0, 1, 2, 3, 4, 5)` — module constant of `game.py`. -/
def ACTIONS : List ℕ := [0, 1, 2, 3, 4, 5]

/-- `THRESHOLD = 5` — module constant of `game.py`. -/
def THRESHOLD : ℕ := 5

/-- `Game.__init__` stores the constructor arguments `actions` and `threshold`. -/
structure Game where
  actions : List ℕ
  threshold : ℕ
deriving DecidableEq

/-- `Game.payoff_matrix` (game.py lines 31-37): built from the *module constants*
`ACTIONS` and `THRESHOLD`, not from `self.actions` / `self.threshold`. -/
def payoff_matrix : List (List (ℕ × ℕ)) :=
  ACTIONS.map (fun i => ACTIONS.map (fun j => if i + j ≤ THRESHOLD then (i, j) else (0, 0)))

/-- `Game.evaluate_result` (game.py lines 51-52): a plain lookup in
`payoff_matrix`; `self` is not consulted.  Faithful for `a1, a2 ≤ 5`
(larger indices raise `IndexError` in Python and are never produced
by the engine's strategies). -/
def Game.evaluate_result (_g : Game) (a1 a2 : ℕ) : ℕ × ℕ :=
  (payoff_matrix.getD a1 []).getD a2 (0, 0)

/-- The default game `Game()` with the module constants. -/
def defaultGame : Game := ⟨ACTIONS, THRESHOLD⟩

/-! ## player.py : `Player` data and `compute_scores` -/

/-- The `Player` attributes relevant to match/tournament/evolution book-keeping:
`name` and `history`.  (`game` is shared and carried separately; strategy code
is modelled as functions of the histories.) -/
structure TPlayer where
  name : String
  history : List ℕ
deriving DecidableEq

/-- `Player.clean_history` (player.py lines 70-77): `self.history = []`.
Nothing else is touched. -/
def Player.clean_history (p : TPlayer) : TPlayer :=
  { p with history := [] }

/-- One iteration of the loop of `Player.compute_scores` (player.py lines 63-66):
add both payoffs of one recorded action pair onto the accumulators. -/
def replayStep (g : Game) (acc : ℚ × ℚ) (ab : ℕ × ℕ) : ℚ × ℚ :=
  (acc.1 + ((g.evaluate_result ab.1 ab.2).1 : ℚ), acc.2 + ((g.evaluate_result ab.1 ab.2).2 : ℚ))

/-- `Player.compute_scores` (player.py lines 48-68): raises `ValueError` when the
two histories differ in length, otherwise replays `evaluate_result` over
`zip(self.history, opponent.history)` accumulating both scores. -/
def Player.compute_scores (g : Game) (h1 h2 : List ℕ) : Except String (ℚ × ℚ) :=
  if h1.length ≠ h2.length then
    Except.error "Histories must be of the same length to compute scores."
  else
    Except.ok ((h1.zip h2).foldl (replayStep g) (0, 0))

/-! ## Claim C4 -/

/-- Claim C4: the claim states that for every constructed `Game`, `evaluate_result`
compares `a1 + a2` against the constructed `threshold`.  The code instead reads the
hardcoded module constant `THRESHOLD = 5` through `payoff_matrix`. Concretely, a
`Game` built with the default action set and `threshold = 7` returns `(0, 0)` on
`(3, 3)` even though `3 + 3 = 6 ≤ 7`, diverging from the claim (and from the
documented meaning of the `threshold` parameter). -/
theorem C4_threshold_ignored_at_3_3 :
    3 ∈ (Game.mk ACTIONS 7).actions ∧
    3 + 3 ≤ (Game.mk ACTIONS 7).threshold ∧
    (Game.mk ACTIONS 7).evaluate_result 3 3 = (0, 0) ∧
    ((0, 0) : ℕ × ℕ) ≠ (3, 3) := by
  decide

/-- For the *default* game (module constants), the claimed payoff rule does hold:
for all in-range actions, the payoff is `(a1, a2)` when the sum stays within the
threshold and `(0, 0)` otherwise. -/
theorem evaluate_result_default_game (a1 a2 : ℕ) (ha1 : a1 ∈ ACTIONS) (ha2 : a2 ∈ ACTIONS) :
    defaultGame.evaluate_result a1 a2 =
      if a1 + a2 ≤ defaultGame.threshold then (a1, a2) else (0, 0) := by
  fin_cases ha1 <;> fin_cases ha2 <;> rfl

/-! ## match.py : the round state machine

`Match.play` / `Match.play_trace` run a do-while loop; in fixed-length mode
(`n_rounds >= 1`) the loop body executes exactly `n_rounds` times, since the
round counter starts at `0`, is incremented once per iteration, and the loop
continues while `n_rounds != counter`.  Strategies are modelled as functions
of the two current histories (own first, opponent's second), which covers the
deterministic strategy classes of `player.py`; the per-round `random()` draws
used for error injection are passed in explicitly, one pair per round. -/

/-- The mutable state of one running `Match`: the two players' histories,
the two running cumulative payoffs, and `self._round_counter`. -/
structure MatchState where
  h1 : List ℕ
  h2 : List ℕ
  s1 : ℚ
  s2 : ℚ
  counter : ℕ
deriving DecidableEq

/-- `max(ACTIONS)` as evaluated in match.py line 69. -/
def maxACTION : ℕ := ACTIONS.foldl max 0

/-- `ACTIONS[max(ACTIONS) - a]` (match.py lines 69-70): the faulted replacement
of an intended action `a`. -/
def mirrorAction (a : ℕ) : ℕ := ACTIONS.getD (maxACTION - a) 0

/-- `a if random() > error else ACTIONS[max(ACTIONS) - a]` with the draw `r`
made explicit (match.py lines 69-70). -/
def applyError (error r : ℚ) (a : ℕ) : ℕ :=
  if r > error then a else mirrorAction a

/-- One iteration of the match loop (match.py lines 67-85): both strategies
propose actions from the current histories, each action is independently
faulted, the game evaluates the (possibly faulted) pair, the *executed*
actions are appended to the histories, the payoffs accumulate, and the
round counter is incremented. -/
def roundStep (g : Game) (σ1 σ2 : List ℕ → List ℕ → ℕ) (error r1 r2 : ℚ)
    (st : MatchState) : MatchState :=
  let a1 := σ1 st.h1 st.h2
  let a2 := σ2 st.h2 st.h1
  let e1 := applyError error r1 a1
  let e2 := applyError error r2 a2
  let p := g.evaluate_result e1 e2
  { h1 := st.h1 ++ [e1], h2 := st.h2 ++ [e2],
    s1 := st.s1 + p.1, s2 := st.s2 + p.2, counter := st.counter + 1 }

/-- The remaining `n` iterations of the fixed-length match loop; `draws` gives
the two error draws of the round whose (0-based) index is the current counter. -/
def runRounds (g : Game) (σ1 σ2 : List ℕ → List ℕ → ℕ) (error : ℚ)
    (draws : ℕ → ℚ × ℚ) : ℕ → MatchState → MatchState
  | 0, st => st
  | n + 1, st =>
      runRounds g σ1 σ2 error draws n
        (roundStep g σ1 σ2 error (draws st.counter).1 (draws st.counter).2 st)

/-- `Match.__init__` (match.py lines 29-47) in fixed-length mode: histories of
both players are cleared, the counter starts at `0`, the score at `(0, 0)`. -/
def Match.initState : MatchState := ⟨[], [], 0, 0, 0⟩

/-- `Match.play` in fixed-length mode with `n_rounds = N`: run the loop `N`
times from the initial state (see the section comment for why the do-while
loop runs exactly `N` iterations when `N ≥ 1`). -/
def Match.play (g : Game) (σ1 σ2 : List ℕ → List ℕ → ℕ) (error : ℚ)
    (draws : ℕ → ℚ × ℚ) (N : ℕ) : MatchState :=
  runRounds g σ1 σ2 error draws N Match.initState

/-- `self.score` as set at the end of `play()` (match.py lines 93-95):
mean payoff per round. -/
def Match.score (st : MatchState) : ℚ × ℚ :=
  (st.s1 / st.counter, st.s2 / st.counter)

/-- The assertion at the end of `play()` / `play_trace()` (match.py lines
96-107): recompute the scores from the two final histories via
`compute_scores`, divide by the rounds played, and check both components
agree with the incrementally accumulated mean score within `1e-6`. -/
def Match.scoreCheck (g : Game) (st : MatchState) : Bool :=
  match Player.compute_scores g st.h1 st.h2 with
  | Except.error _ => false
  | Except.ok c =>
      decide (|c.1 / (st.counter : ℚ) - (Match.score st).1| < 1e-6) &&
      decide (|c.2 / (st.counter : ℚ) - (Match.score st).2| < 1e-6)

lemma maxACTION_eq : maxACTION = 5 := rfl

lemma mirrorAction_eq (a : ℕ) (h : a ≤ 5) : mirrorAction a = maxACTION - a := by
  interval_cases a <;> rfl

/-! ## Claim C7 -/

/-- Claim C7: in every round of the match loop, independently for each player,
the proposed action `a` is replaced by its mirror `max(ACTIONS) - a` exactly
when that player's fresh draw fails the `r > error` test; the game then
evaluates the post-fault pair, and each history is appended with the
post-fault (actually executed) action, never the intended one. -/
theorem C7_mirror_fault_and_post_fault_history (g : Game)
    (σ1 σ2 : List ℕ → List ℕ → ℕ) (error r1 r2 : ℚ) (st : MatchState)
    (ha1 : σ1 st.h1 st.h2 ≤ 5) (ha2 : σ2 st.h2 st.h1 ≤ 5) :
    roundStep g σ1 σ2 error r1 r2 st =
      { h1 := st.h1 ++ [if r1 > error then σ1 st.h1 st.h2 else maxACTION - σ1 st.h1 st.h2],
        h2 := st.h2 ++ [if r2 > error then σ2 st.h2 st.h1 else maxACTION - σ2 st.h2 st.h1],
        s1 := st.s1 + (g.evaluate_result
          (if r1 > error then σ1 st.h1 st.h2 else maxACTION - σ1 st.h1 st.h2)
          (if r2 > error then σ2 st.h2 st.h1 else maxACTION - σ2 st.h2 st.h1)).1,
        s2 := st.s2 + (g.evaluate_result
          (if r1 > error then σ1 st.h1 st.h2 else maxACTION - σ1 st.h1 st.h2)
          (if r2 > error then σ2 st.h2 st.h1 else maxACTION - σ2 st.h2 st.h1)).2,
        counter := st.counter + 1 } := by
  simp only [roundStep, applyError]
  split_ifs <;> simp [mirrorAction_eq, ha1, ha2]

/-- Witness for C7 at a concrete input: intended actions `4` and `2`, error
probability `1/2`, first draw `1/4` (faulted, `4 ↦ 1`), second draw `3/4`
(kept). -/
theorem C7_witness :
    (fun _ _ : List ℕ => 4) ([] : List ℕ) ([] : List ℕ) ≤ 5 ∧
    (fun _ _ : List ℕ => 2) ([] : List ℕ) ([] : List ℕ) ≤ 5 ∧
    roundStep defaultGame (fun _ _ => 4) (fun _ _ => 2) (1/2) (1/4) (3/4)
        Match.initState =
      { h1 := [] ++ [if (1/4 : ℚ) > 1/2 then 4 else maxACTION - 4],
        h2 := [] ++ [if (3/4 : ℚ) > 1/2 then 2 else maxACTION - 2],
        s1 := 0 + (defaultGame.evaluate_result
          (if (1/4 : ℚ) > 1/2 then 4 else maxACTION - 4)
          (if (3/4 : ℚ) > 1/2 then 2 else maxACTION - 2)).1,
        s2 := 0 + (defaultGame.evaluate_result
          (if (1/4 : ℚ) > 1/2 then 4 else maxACTION - 4)
          (if (3/4 : ℚ) > 1/2 then 2 else maxACTION - 2)).2,
        counter := 0 + 1 } :=
  ⟨by decide, by decide,
    C7_mirror_fault_and_post_fault_history defaultGame (fun _ _ => 4) (fun _ _ => 2)
      (1/2) (1/4) (3/4) Match.initState (by decide) (by decide)⟩

/-! ## Claim C9 -/

lemma roundStep_fields (g : Game) (σ1 σ2 : List ℕ → List ℕ → ℕ) (error r1 r2 : ℚ)
    (st : MatchState) :
    (roundStep g σ1 σ2 error r1 r2 st).h1.length = st.h1.length + 1 ∧
    (roundStep g σ1 σ2 error r1 r2 st).h2.length = st.h2.length + 1 ∧
    (roundStep g σ1 σ2 error r1 r2 st).counter = st.counter + 1 := by
  simp [roundStep]

lemma runRounds_fields (g : Game) (σ1 σ2 : List ℕ → List ℕ → ℕ) (error : ℚ)
    (draws : ℕ → ℚ × ℚ) :
    ∀ (n : ℕ) (st : MatchState),
      (runRounds g σ1 σ2 error draws n st).h1.length = st.h1.length + n ∧
      (runRounds g σ1 σ2 error draws n st).h2.length = st.h2.length + n ∧
      (runRounds g σ1 σ2 error draws n st).counter = st.counter + n := by
  intro n
  induction n with
  | zero => intro st; simp [runRounds]
  | succ m ih =>
      intro st
      obtain ⟨ih1, ih2, ih3⟩ :=
        ih (roundStep g σ1 σ2 error (draws st.counter).1 (draws st.counter).2 st)
      obtain ⟨hr1, hr2, hr3⟩ :=
        roundStep_fields g σ1 σ2 error (draws st.counter).1 (draws st.counter).2 st
      simp only [runRounds]
      omega

/-- Claim C9: a fixed-length `Match` with integer `n_rounds = N ≥ 1` and
`error = 0` ends with both histories of length exactly `N` and the round
counter equal to `N` (construction clears both histories first). -/
theorem C9_round_count (g : Game) (σ1 σ2 : List ℕ → List ℕ → ℕ)
    (draws : ℕ → ℚ × ℚ) (N : ℕ) (_hN : 1 ≤ N) :
    (Match.play g σ1 σ2 0 draws N).h1.length = N ∧
    (Match.play g σ1 σ2 0 draws N).h2.length = N ∧
    (Match.play g σ1 σ2 0 draws N).counter = N := by
  have h := runRounds_fields g σ1 σ2 0 draws N Match.initState
  simpa [Match.play, Match.initState] using h

/-- Witness for C9: a 5-round match between two constant strategies. -/
theorem C9_witness :
    1 ≤ 5 ∧
    ((Match.play defaultGame (fun _ _ => 0) (fun _ _ => 3) 0 (fun _ => (1, 1)) 5).h1.length = 5 ∧
     (Match.play defaultGame (fun _ _ => 0) (fun _ _ => 3) 0 (fun _ => (1, 1)) 5).h2.length = 5 ∧
     (Match.play defaultGame (fun _ _ => 0) (fun _ _ => 3) 0 (fun _ => (1, 1)) 5).counter = 5) :=
  ⟨by decide,
    C9_round_count defaultGame (fun _ _ => 0) (fun _ _ => 3) (fun _ => (1, 1)) 5 (by decide)⟩

/-! ## Claim C8 -/

lemma roundStep_replay (g : Game) (σ1 σ2 : List ℕ → List ℕ → ℕ) (error r1 r2 : ℚ)
    (st : MatchState)
    (hlen : st.h1.length = st.h2.length)
    (hsc : (st.h1.zip st.h2).foldl (replayStep g) (0, 0) = (st.s1, st.s2)) :
    (roundStep g σ1 σ2 error r1 r2 st).h1.length =
        (roundStep g σ1 σ2 error r1 r2 st).h2.length ∧
    ((roundStep g σ1 σ2 error r1 r2 st).h1.zip
        (roundStep g σ1 σ2 error r1 r2 st).h2).foldl (replayStep g) (0, 0) =
      ((roundStep g σ1 σ2 error r1 r2 st).s1, (roundStep g σ1 σ2 error r1 r2 st).s2) := by
  simp only [roundStep]
  constructor
  · simp [hlen]
  · rw [List.zip_append hlen, List.foldl_append, hsc]
    simp [replayStep]

lemma runRounds_replay (g : Game) (σ1 σ2 : List ℕ → List ℕ → ℕ) (error : ℚ)
    (draws : ℕ → ℚ × ℚ) :
    ∀ (n : ℕ) (st : MatchState),
      st.h1.length = st.h2.length →
      (st.h1.zip st.h2).foldl (replayStep g) (0, 0) = (st.s1, st.s2) →
      (runRounds g σ1 σ2 error draws n st).h1.length =
          (runRounds g σ1 σ2 error draws n st).h2.length ∧
      ((runRounds g σ1 σ2 error draws n st).h1.zip
          (runRounds g σ1 σ2 error draws n st).h2).foldl (replayStep g) (0, 0) =
        ((runRounds g σ1 σ2 error draws n st).s1, (runRounds g σ1 σ2 error draws n st).s2) := by
  intro n
  induction n with
  | zero => intro st hlen hsc; exact ⟨hlen, hsc⟩
  | succ m ih =>
      intro st hlen hsc
      obtain ⟨hlen', hsc'⟩ :=
        roundStep_replay g σ1 σ2 error (draws st.counter).1 (draws st.counter).2 st hlen hsc
      simpa only [runRounds] using
        ih (roundStep g σ1 σ2 error (draws st.counter).1 (draws st.counter).2 st) hlen' hsc'

/-- Claim C8: for a completed fixed-length match with `error = 0`, the score
accumulated round by round agrees exactly with `compute_scores` replayed over
the two final histories — `compute_scores` succeeds (no `ValueError`), each of
its components divided by the rounds played is within `1e-6` of the stored
mean score, and the assertion at the end of `play()` / `play_trace()` holds. -/
theorem C8_score_consistency (g : Game) (σ1 σ2 : List ℕ → List ℕ → ℕ)
    (draws : ℕ → ℚ × ℚ) (N : ℕ) (_hN : 1 ≤ N) :
    Player.compute_scores g (Match.play g σ1 σ2 0 draws N).h1
        (Match.play g σ1 σ2 0 draws N).h2 =
      Except.ok ((Match.play g σ1 σ2 0 draws N).s1, (Match.play g σ1 σ2 0 draws N).s2) ∧
    |(Match.play g σ1 σ2 0 draws N).s1 / ((Match.play g σ1 σ2 0 draws N).counter : ℚ) -
        (Match.score (Match.play g σ1 σ2 0 draws N)).1| < 1e-6 ∧
    |(Match.play g σ1 σ2 0 draws N).s2 / ((Match.play g σ1 σ2 0 draws N).counter : ℚ) -
        (Match.score (Match.play g σ1 σ2 0 draws N)).2| < 1e-6 ∧
    Match.scoreCheck g (Match.play g σ1 σ2 0 draws N) = true := by
  obtain ⟨hlen, hsc⟩ :=
    runRounds_replay g σ1 σ2 0 draws N Match.initState (by rfl) (by rfl)
  have hcs : Player.compute_scores g (Match.play g σ1 σ2 0 draws N).h1
      (Match.play g σ1 σ2 0 draws N).h2 =
      Except.ok ((Match.play g σ1 σ2 0 draws N).s1, (Match.play g σ1 σ2 0 draws N).s2) := by
    rw [Player.compute_scores, if_neg (by simpa [Match.play] using hlen.symm ▸ hlen)]
    · simpa [Match.play] using hsc
  refine ⟨hcs, ?_, ?_, ?_⟩
  · simp [Match.score]; norm_num
  · simp [Match.score]; norm_num
  · rw [Match.scoreCheck, hcs]
    simp [Match.score]
    norm_num

/-- Witness for C8: a 4-round match between the constant strategies `2` and `3`
with `error = 0`. -/
theorem C8_witness :
    1 ≤ 4 ∧
    (Player.compute_scores defaultGame
        (Match.play defaultGame (fun _ _ => 2) (fun _ _ => 3) 0 (fun _ => (1, 1)) 4).h1
        (Match.play defaultGame (fun _ _ => 2) (fun _ _ => 3) 0 (fun _ => (1, 1)) 4).h2 =
      Except.ok ((Match.play defaultGame (fun _ _ => 2) (fun _ _ => 3) 0 (fun _ => (1, 1)) 4).s1,
        (Match.play defaultGame (fun _ _ => 2) (fun _ _ => 3) 0 (fun _ => (1, 1)) 4).s2) ∧
    |(Match.play defaultGame (fun _ _ => 2) (fun _ _ => 3) 0 (fun _ => (1, 1)) 4).s1 /
        ((Match.play defaultGame (fun _ _ => 2) (fun _ _ => 3) 0 (fun _ => (1, 1)) 4).counter : ℚ) -
        (Match.score (Match.play defaultGame (fun _ _ => 2) (fun _ _ => 3) 0 (fun _ => (1, 1)) 4)).1| <
      1e-6 ∧
    |(Match.play defaultGame (fun _ _ => 2) (fun _ _ => 3) 0 (fun _ => (1, 1)) 4).s2 /
        ((Match.play defaultGame (fun _ _ => 2) (fun _ _ => 3) 0 (fun _ => (1, 1)) 4).counter : ℚ) -
        (Match.score (Match.play defaultGame (fun _ _ => 2) (fun _ _ => 3) 0 (fun _ => (1, 1)) 4)).2| <
      1e-6 ∧
    Match.scoreCheck defaultGame
        (Match.play defaultGame (fun _ _ => 2) (fun _ _ => 3) 0 (fun _ => (1, 1)) 4) = true) :=
  ⟨by decide,
    C8_score_consistency defaultGame (fun _ _ => 2) (fun _ _ => 3) (fun _ => (1, 1)) 4 (by decide)⟩

/-! ## player.py : `GrimTrigger`, a strategy with private per-match state -/

/-- The per-instance state of a `GrimTrigger` player (player.py lines 485-491):
its action history and the private punishment flag `self.triggered`. -/
structure GrimTriggerSt where
  history : List ℕ
  triggered : Bool
deriving DecidableEq

/-- `GrimTrigger.__init__` (player.py lines 489-491): empty history,
`triggered = False`. -/
def GrimTrigger.init : GrimTriggerSt := ⟨[], false⟩

/-- `Player.clean_history` as inherited by `GrimTrigger` (player.py lines
70-77): only `self.history` is reset; `self.triggered` is not touched. -/
def GrimTrigger.clean_history (p : GrimTriggerSt) : GrimTriggerSt :=
  { p with history := [] }

/-- `GrimTrigger.strategy` (player.py lines 493-509): returns the chosen action
together with the updated instance state (the method may set `self.triggered`). -/
def GrimTrigger.strategy (p : GrimTriggerSt) (oppHistory : List ℕ) : ℕ × GrimTriggerSt :=
  if p.triggered then (3, p)
  else if oppHistory = [] then (2, p)
  else if oppHistory.getLastD 0 > 2 then (3, { p with triggered := true })
  else (2, p)

/-- The offspring produced from a parent in `Evolution.natural_selection`
(evolution.py lines 106-109): `copy.deepcopy(parent)` (which copies the private
state verbatim) followed by `new_player.clean_history()`. -/
def GrimTrigger.offspring (parent : GrimTriggerSt) : GrimTriggerSt :=
  GrimTrigger.clean_history parent

/-! ## Claim C5 -/

/-- Claim C5: the claim says that whenever a player's history is cleared, its
private per-match state (e.g. `GrimTrigger.triggered`) is reset to its initial
value.  The code's `clean_history` — the only clearing mechanism, also used by
`Match.__init__`, between tournament matches, and on offspring in
`Evolution.natural_selection` — resets only `history`.  Concretely: a fresh
`GrimTrigger` that saw a defection (opponent's last action `3 > 2`) sets
`triggered = True`; after `clean_history` the flag is still `True`, the
offspring of such a parent is also still `True`, and in a fresh first round
the cleaned player plays the punishment action `3` where a truly reset player
plays the cooperative action `2`. -/
theorem C5_clean_history_keeps_trigger :
    (GrimTrigger.strategy ⟨[2], false⟩ [3]).2.triggered = true ∧
    (GrimTrigger.clean_history (GrimTrigger.strategy ⟨[2], false⟩ [3]).2).history = [] ∧
    (GrimTrigger.clean_history (GrimTrigger.strategy ⟨[2], false⟩ [3]).2).triggered = true ∧
    (GrimTrigger.offspring (GrimTrigger.strategy ⟨[2], false⟩ [3]).2).triggered = true ∧
    GrimTrigger.init.triggered = false ∧
    (GrimTrigger.strategy
        (GrimTrigger.clean_history (GrimTrigger.strategy ⟨[2], false⟩ [3]).2) []).1 = 3 ∧
    (GrimTrigger.strategy GrimTrigger.init []).1 = 2 := by
  decide

/-! ## tournament.py : `Tournament.play` / `Tournament.play_trace`

Both methods rebuild `self.ranking` with `0.0` for every player, enumerate
`itertools.combinations(self.players, 2)`, and for each pair construct
`Match(player_1=..., player_2=..., stop_prob=..., max_rounds=..., error=...)`.
`Match.__init__` accepts the keyword parameters `player_1`, `player_2`,
`n_rounds`, `error` only, so the first such construction raises `TypeError`
before `Match.__init__` runs (hence before any history is cleared or any
round is played).  The model covers the execution up to that first `Match`
construction; the branch in which the keywords would be accepted is
unreachable (the keyword check computes to `false`). -/

/-- The keyword parameters accepted by `Match.__init__` (match.py lines 10-16). -/
def matchInitKeywords : List String := ["player_1", "player_2", "n_rounds", "error"]

/-- The keyword arguments `Tournament.play` / `Tournament.play_trace` pass to
`Match` (tournament.py lines 94-100 and 133-139). -/
def tournamentMatchCallKeywords : List String :=
  ["player_1", "player_2", "stop_prob", "max_rounds", "error"]

/-- A Python keyword call succeeds (no unexpected-keyword `TypeError`) iff every
passed keyword is an accepted parameter name. -/
def keywordsAccepted (call params : List String) : Bool :=
  call.all (fun kw => params.contains kw)

/-- `itertools.combinations(l, 2)`: all unordered pairs in enumeration order. -/
def combinations2 {α : Type} : List α → List (α × α)
  | [] => []
  | x :: xs => xs.map (fun y => (x, y)) ++ combinations2 xs

/-- The kind of Python exception the model tracks. -/
inductive PyError : Type
  | typeError
deriving DecidableEq

/-- The observable outcome of a `Tournament.play` / `play_trace` call: the
exception (if any), the rebuilt `self.ranking`, and the players (whose
histories the call may mutate). -/
structure TournamentOutcome where
  raised : Option PyError
  ranking : List (TPlayer × ℚ)
  players : List TPlayer
deriving DecidableEq

/-- `Tournament.play` (tournament.py lines 67-108) up to the first `Match`
construction: rebuild `ranking` at zero, enumerate the pairs, and construct
`Match(...)` with the call-site keywords for the first pair (if any). -/
def Tournament.play (roster : List TPlayer) : TournamentOutcome :=
  let ranking := roster.map (fun p => (p, (0 : ℚ)))
  if (combinations2 roster).isEmpty then
    { raised := none, ranking := ranking, players := roster }
  else if keywordsAccepted tournamentMatchCallKeywords matchInitKeywords then
    -- Unreachable: the keyword check computes to `false`, mirroring the
    -- `TypeError` Python raises before `Match.__init__` runs, so the
    -- match-playing part of the loop body is never reached.
    { raised := none, ranking := ranking, players := roster }
  else
    { raised := some PyError.typeError, ranking := ranking, players := roster }

/-- `Tournament.play_trace` (tournament.py lines 110-166) up to the first
`Match` construction: identical control flow and `Match` call-site keywords. -/
def Tournament.play_trace (roster : List TPlayer) : TournamentOutcome :=
  let ranking := roster.map (fun p => (p, (0 : ℚ)))
  if (combinations2 roster).isEmpty then
    { raised := none, ranking := ranking, players := roster }
  else if keywordsAccepted tournamentMatchCallKeywords matchInitKeywords then
    -- Unreachable, as in `Tournament.play`.
    { raised := none, ranking := ranking, players := roster }
  else
    { raised := some PyError.typeError, ranking := ranking, players := roster }

lemma combinations2_ne_nil {α : Type} (x y : α) (xs : List α) :
    combinations2 (x :: y :: xs) ≠ [] := by
  simp [combinations2]

lemma keywords_not_accepted :
    keywordsAccepted tournamentMatchCallKeywords matchInitKeywords = false := by
  decide

/-! ## Claim C1 -/

/-- Claim C1: for every roster with at least two players, both
`Tournament.play` and `Tournament.play_trace` raise `TypeError` at the first
`Match` construction (the call passes `stop_prob` and `max_rounds`, which
`Match.__init__` does not accept); the rebuilt ranking still maps every player
to `0.0` and no player's history has been modified. -/
theorem C1_tournament_play_raises_type_error (roster : List TPlayer)
    (h : 2 ≤ roster.length) :
    Tournament.play roster =
      { raised := some PyError.typeError,
        ranking := roster.map (fun p => (p, (0 : ℚ))), players := roster } ∧
    Tournament.play_trace roster =
      { raised := some PyError.typeError,
        ranking := roster.map (fun p => (p, (0 : ℚ))), players := roster } ∧
    (∀ e ∈ (Tournament.play roster).ranking, e.2 = 0) ∧
    (Tournament.play roster).players = roster := by
  obtain ⟨x, y, xs, rfl⟩ : ∃ x y xs, roster = x :: y :: xs := by
    match roster, h with
    | x :: y :: xs, _ => exact ⟨x, y, xs, rfl⟩
  have hne : (combinations2 (x :: y :: xs)).isEmpty = false := by
    simpa [List.isEmpty_iff] using combinations2_ne_nil x y xs
  constructor
  · rw [Tournament.play, hne]
    simp [keywords_not_accepted]
  constructor
  · rw [Tournament.play_trace, hne]
    simp [keywords_not_accepted]
  constructor
  · intro e he
    rw [Tournament.play, hne] at he
    simp only [keywords_not_accepted, Bool.false_eq_true, if_false, cond_false] at he
    simp only [List.mem_map] at he
    obtain ⟨p, _, rfl⟩ := he
    rfl
  · rw [Tournament.play, hne]
    simp [keywords_not_accepted]

/-- Witness for C1: a two-player roster, the second player with a nonempty
history that the failed call leaves untouched. -/
theorem C1_witness :
    2 ≤ ([⟨"P1", []⟩, ⟨"P2", [0]⟩] : List TPlayer).length ∧
    (Tournament.play [⟨"P1", []⟩, ⟨"P2", [0]⟩] =
      { raised := some PyError.typeError,
        ranking := [(⟨"P1", []⟩, 0), (⟨"P2", [0]⟩, 0)],
        players := [⟨"P1", []⟩, ⟨"P2", [0]⟩] } ∧
    Tournament.play_trace [⟨"P1", []⟩, ⟨"P2", [0]⟩] =
      { raised := some PyError.typeError,
        ranking := [(⟨"P1", []⟩, 0), (⟨"P2", [0]⟩, 0)],
        players := [⟨"P1", []⟩, ⟨"P2", [0]⟩] } ∧
    (∀ e ∈ (Tournament.play [⟨"P1", []⟩, ⟨"P2", [0]⟩]).ranking, e.2 = 0) ∧
    (Tournament.play [⟨"P1", []⟩, ⟨"P2", [0]⟩]).players = [⟨"P1", []⟩, ⟨"P2", [0]⟩]) :=
  ⟨by decide, C1_tournament_play_raises_type_error [⟨"P1", []⟩, ⟨"P2", [0]⟩] (by decide)⟩

/-! ## evolution.py : natural selection, strategy counts, generation loop

`Evolution.ranking` is a Python dict keyed by distinct live player instances;
it is modelled as a list of `(player, score)` pairs in dict insertion order.
`sorted(result_tournament.items(), key=..., reverse=True)` is Python's stable
descending sort, modelled by a stable insertion sort. -/

/-- Insert an element into a list that is already sorted by descending score,
before the first element whose score is not larger (so that, combined with
`sortDesc`, ties keep their original relative order, as Python's stable
`sorted` does). -/
def insertDesc {α : Type} (x : α × ℚ) : List (α × ℚ) → List (α × ℚ)
  | [] => [x]
  | y :: ys => if y.2 ≤ x.2 then x :: y :: ys else y :: insertDesc x ys

/-- `sorted(..., key=lambda item: item[1], reverse=True)` (evolution.py lines
93-95): stable sort by descending score. -/
def sortDesc {α : Type} : List (α × ℚ) → List (α × ℚ)
  | [] => []
  | x :: xs => insertDesc x (sortDesc xs)

/-- Python's `l[:-r]` for a nonnegative int `r` (evolution.py line 102): for
`r = 0` the stop index is `-0 = 0`, so the slice is *empty*; for `r ≥ 1` it
keeps all but the last `r` elements. -/
def pySliceDropLast {α : Type} (l : List α) (r : ℕ) : List α :=
  if r = 0 then [] else l.take (l.length - r)

/-- `Evolution.natural_selection` (evolution.py lines 79-114) with
`R = self.repr_int`: sort the tournament result by descending score, take the
top `R` as parents, keep `current_population[:-R]` as survivors, produce the
offspring as deep copies of the parents with `clean_history()` applied, and
return `survivors + offspring` all with score `0`. -/
def Evolution.natural_selection (R : ℕ) (result : List (TPlayer × ℚ)) :
    List (TPlayer × ℚ) :=
  let sortedPlayers := sortDesc result
  let currentPopulation := sortedPlayers.map Prod.fst
  let parents := currentPopulation.take R
  let survivors := pySliceDropLast currentPopulation R
  let offspring := parents.map Player.clean_history
  let newPopulation := survivors ++ offspring
  newPopulation.map (fun p => (p, (0 : ℚ)))

/-- `Evolution.count_strategies` (evolution.py lines 116-136): count the live
individuals per strategy name in dict insertion order, then append a zero
entry for every seed player whose name is absent. -/
def Evolution.count_strategies (population seeds : List TPlayer) :
    List (String × ℕ) :=
  let counts := population.foldl
    (fun cs p =>
      if cs.any (fun c => c.1 = p.name) then
        cs.map (fun c => if c.1 = p.name then (c.1, c.2 + 1) else c)
      else cs ++ [(p.name, 1)])
    []
  seeds.foldl
    (fun cs s => if cs.any (fun c => c.1 = s.name) then cs else cs ++ [(s.name, 0)])
    counts

/-- The generation loop of `Evolution.play` / `Evolution.play_trace`
(evolution.py lines 164-190 and 225-250): each iteration runs a tournament
over the current population, applies `natural_selection` to its result,
recounts the strategies, and breaks when the counts dict has exactly one
entry.  The tournament pass is abstracted by the parameter `genScores`
(it consumes the ambient random source; for a population of fewer than two
players it deterministically returns that population with scores `0.0`).
Returns the number of generations actually simulated and the final ranking. -/
def Evolution.play (genScores : List TPlayer → List (TPlayer × ℚ)) (R : ℕ)
    (seeds : List TPlayer) : ℕ → List (TPlayer × ℚ) → ℕ × List (TPlayer × ℚ)
  | 0, ranking => (0, ranking)
  | gens + 1, ranking =>
      let newRanking := Evolution.natural_selection R (genScores (ranking.map Prod.fst))
      let counts := Evolution.count_strategies (newRanking.map Prod.fst) seeds
      if counts.length = 1 then (1, newRanking)
      else
        let rest := Evolution.play genScores R seeds gens newRanking
        (rest.1 + 1, rest.2)

/-- `self.initial_population` when the constructor receives a single int
(evolution.py lines 55-59): `floor(P / k)` for each of the `k` seed players. -/
def Evolution.initial_population_of_int (P k : ℕ) : List ℕ :=
  List.replicate k (P / k)

/-- `self.total_population = sum(self.initial_population)` (evolution.py 63). -/
def Evolution.total_population (P k : ℕ) : ℕ :=
  (Evolution.initial_population_of_int P k).sum

/-! ## Claim C2 -/

/-- Claim C2: the claim says that with `repr_int = 0` natural selection leaves
the population unchanged (scores reset) and raises no error.  In the code
`survivors = current_population[:-0]` is the *empty* slice, so with zero
parents and zero offspring the returned ranking is empty: the whole
population is discarded, not kept.  Evaluated on a concrete two-individual
tournament result. -/
theorem C2_zero_reproduction_empties_population :
    Evolution.natural_selection 0 [(⟨"A", [2]⟩, 3), (⟨"B", [3]⟩, 1)] = [] ∧
    Evolution.natural_selection 0 [(⟨"A", [2]⟩, 3), (⟨"B", [3]⟩, 1)] ≠
      [(⟨"A", [2]⟩, 0), (⟨"B", [3]⟩, 0)] := by
  decide

/-! ## Claim C3 -/

lemma insertDesc_perm {α : Type} (x : α × ℚ) (l : List (α × ℚ)) :
    (insertDesc x l).Perm (x :: l) := by
  induction l with
  | nil => simp [insertDesc]
  | cons y ys ih =>
      simp only [insertDesc]
      split_ifs
      · exact List.Perm.refl _
      · exact (ih.cons y).trans (List.Perm.swap x y ys)

lemma sortDesc_perm {α : Type} (l : List (α × ℚ)) : (sortDesc l).Perm l := by
  induction l with
  | nil => simp [sortDesc]
  | cons x xs ih =>
      exact (insertDesc_perm x (sortDesc xs)).trans (ih.cons x)

lemma insertDesc_sorted {α : Type} (x : α × ℚ) (l : List (α × ℚ))
    (h : List.Pairwise (fun a b : α × ℚ => b.2 ≤ a.2) l) :
    List.Pairwise (fun a b : α × ℚ => b.2 ≤ a.2) (insertDesc x l) := by
  induction l with
  | nil => simp [insertDesc]
  | cons y ys ih =>
      obtain ⟨hy, hys⟩ := List.pairwise_cons.mp h
      simp only [insertDesc]
      split_ifs with hc
      · refine List.pairwise_cons.mpr ⟨?_, h⟩
        intro z hz
        rcases List.mem_cons.mp hz with rfl | hz'
        · exact hc
        · exact le_trans (hy z hz') hc
      · refine List.pairwise_cons.mpr ⟨?_, ih hys⟩
        intro z hz
        rcases List.mem_cons.mp ((insertDesc_perm x ys).mem_iff.mp hz) with rfl | hz'
        · exact le_of_lt (not_le.mp hc)
        · exact hy z hz'

lemma sortDesc_sorted {α : Type} (l : List (α × ℚ)) :
    List.Pairwise (fun a b : α × ℚ => b.2 ≤ a.2) (sortDesc l) := by
  induction l with
  | nil => simp [sortDesc]
  | cons x xs ih => exact insertDesc_sorted x (sortDesc xs) ih

/-- Claim C3: with `R = repr_int` and `1 ≤ R ≤ N` (`N` the number of scored
individuals), `natural_selection` sorts by descending score (the sorted list
is a permutation of the input and is ordered by nonincreasing score), keeps
everything except the bottom `R` as survivors, appends `R` offspring that are
copies of the top-`R` parents with their histories cleared, and returns the
new population of exactly `N` individuals with every score reset to zero. -/
theorem C3_natural_selection_spec (R : ℕ) (result : List (TPlayer × ℚ))
    (hR1 : 1 ≤ R) (hR2 : R ≤ result.length) :
    Evolution.natural_selection R result =
      (((sortDesc result).map Prod.fst).take (result.length - R) ++
        (((sortDesc result).map Prod.fst).take R).map Player.clean_history).map
        (fun p => (p, (0 : ℚ))) ∧
    (Evolution.natural_selection R result).length = result.length ∧
    (∀ e ∈ Evolution.natural_selection R result, e.2 = 0) ∧
    (sortDesc result).Perm result ∧
    List.Pairwise (fun a b : TPlayer × ℚ => b.2 ≤ a.2) (sortDesc result) ∧
    (∀ p ∈ (((sortDesc result).map Prod.fst).take R).map Player.clean_history,
      p.history = ([] : List ℕ)) := by
  have hlen : ((sortDesc result).map Prod.fst).length = result.length := by
    rw [List.length_map, (sortDesc_perm result).length_eq]
  have heq : Evolution.natural_selection R result =
      (((sortDesc result).map Prod.fst).take (result.length - R) ++
        (((sortDesc result).map Prod.fst).take R).map Player.clean_history).map
        (fun p => (p, (0 : ℚ))) := by
    simp only [Evolution.natural_selection, pySliceDropLast, hlen]
    rw [if_neg (by omega)]
  refine ⟨heq, ?_, ?_, sortDesc_perm result, sortDesc_sorted result, ?_⟩
  · rw [heq]
    simp only [List.length_map, List.length_append, List.length_take, hlen]
    omega
  · intro e he
    rw [heq] at he
    obtain ⟨p, _, rfl⟩ := List.mem_map.mp he
    rfl
  · intro p hp
    obtain ⟨q, _, rfl⟩ := List.mem_map.mp hp
    rfl

/-- A concrete two-individual tournament result used to instantiate C3. -/
def c3input : List (TPlayer × ℚ) := [(⟨"A", [0]⟩, 2), (⟨"B", [1]⟩, 1)]

/-- Witness for C3: `R = 1` on a two-individual result. -/
theorem C3_witness :
    1 ≤ 1 ∧ 1 ≤ c3input.length ∧
    (Evolution.natural_selection 1 c3input =
      (((sortDesc c3input).map Prod.fst).take (c3input.length - 1) ++
        (((sortDesc c3input).map Prod.fst).take 1).map Player.clean_history).map
        (fun p => (p, (0 : ℚ))) ∧
    (Evolution.natural_selection 1 c3input).length = c3input.length ∧
    (∀ e ∈ Evolution.natural_selection 1 c3input, e.2 = 0) ∧
    (sortDesc c3input).Perm c3input ∧
    List.Pairwise (fun a b : TPlayer × ℚ => b.2 ≤ a.2) (sortDesc c3input) ∧
    (∀ p ∈ (((sortDesc c3input).map Prod.fst).take 1).map Player.clean_history,
      p.history = ([] : List ℕ))) :=
  ⟨by decide, by decide,
    C3_natural_selection_spec 1 c3input (by decide) (by decide)⟩

/-! ## Claim C6 -/

/-- Claim C6 counterexample: seeds are the two archetypes `"A"` and `"B"`, and
the live population is a single `"A"` individual (a run the real code reaches
with `initial_population = (1, 0)` and `repr_int = 1`; a one-player tournament
plays no match and returns that player with score `0.0`, which is what the
generation-scores function here produces).  After generation 1's natural
selection, only the archetype `"A"` is alive, yet with `generations = 3` the
loop simulates all 3 generations instead of stopping after the first:
`count_strategies` pads the extinct seed `"B"` with a zero entry, so the
`len(current_counts) == 1` early-stop test never fires for this roster. -/
theorem C6_monoculture_does_not_stop :
    ((Evolution.play (fun pop => pop.map (fun p => (p, (0 : ℚ)))) 1
        [⟨"A", []⟩, ⟨"B", []⟩] 1 [(⟨"A", []⟩, 0)]).2.map (fun e => e.1.name) = ["A"]) ∧
    Evolution.count_strategies
        ((Evolution.play (fun pop => pop.map (fun p => (p, (0 : ℚ)))) 1
          [⟨"A", []⟩, ⟨"B", []⟩] 1 [(⟨"A", []⟩, 0)]).2.map Prod.fst)
        [⟨"A", []⟩, ⟨"B", []⟩] = [("A", 1), ("B", 0)] ∧
    (Evolution.play (fun pop => pop.map (fun p => (p, (0 : ℚ)))) 1
        [⟨"A", []⟩, ⟨"B", []⟩] 3 [(⟨"A", []⟩, 0)]).1 = 3 := by
  decide

lemma pad_preserves_key (n : String) :
    ∀ (seeds : List TPlayer) (cs : List (String × ℕ)),
      cs.any (fun c => c.1 = n) = true →
      (seeds.foldl
        (fun cs s =>
          if cs.any (fun c => c.1 = s.name) then cs else cs ++ [(s.name, 0)])
        cs).any (fun c => c.1 = n) = true := by
  intro seeds
  induction seeds with
  | nil => intro cs h; exact h
  | cons s rest ih =>
      intro cs h
      simp only [List.foldl_cons]
      split_ifs with hc
      · exact ih cs h
      · exact ih (cs ++ [(s.name, 0)]) (by simp [List.any_append, h])

lemma pad_adds_key (s : TPlayer) :
    ∀ (seeds : List TPlayer) (cs : List (String × ℕ)), s ∈ seeds →
      (seeds.foldl
        (fun cs t =>
          if cs.any (fun c => c.1 = t.name) then cs else cs ++ [(t.name, 0)])
        cs).any (fun c => c.1 = s.name) = true := by
  intro seeds
  induction seeds with
  | nil => intro cs h; simp at h
  | cons t rest ih =>
      intro cs hmem
      simp only [List.foldl_cons]
      rcases List.mem_cons.mp hmem with rfl | hrest
      · split_ifs with hc
        · exact pad_preserves_key s.name rest cs hc
        · exact pad_preserves_key s.name rest (cs ++ [(s.name, 0)]) (by simp)
      · split_ifs <;> exact ih _ hrest

lemma count_strategies_has_seed_key (population seeds : List TPlayer)
    (s : TPlayer) (hs : s ∈ seeds) :
    (Evolution.count_strategies population seeds).any (fun c => c.1 = s.name) = true := by
  simp only [Evolution.count_strategies]
  exact pad_adds_key s seeds _ hs

lemma two_keys_length_two (l : List (String × ℕ)) (n1 n2 : String)
    (h1 : l.any (fun c => c.1 = n1) = true) (h2 : l.any (fun c => c.1 = n2) = true)
    (hne : n1 ≠ n2) : 2 ≤ l.length := by
  match l with
  | [] => simp at h1
  | [x] =>
      simp only [List.any_cons, List.any_nil, Bool.or_false, decide_eq_true_eq] at h1 h2
      exact absurd (h1 ▸ h2 ▸ rfl) hne
  | _ :: _ :: _ => simp only [List.length_cons]; omega

/-- Claim C6 amended: the early stop of the generation loop fires iff the
strategy-count dict has exactly one entry; since `count_strategies` appends a
zero entry for every extinct seed archetype, a seed roster containing two
players with distinct names never stops early — the loop always simulates
all `generations` generations, monoculture notwithstanding. -/
theorem C6_early_stop_only_single_archetype
    (genScores : List TPlayer → List (TPlayer × ℚ)) (R : ℕ)
    (seeds : List TPlayer) (s1 s2 : TPlayer)
    (hs1 : s1 ∈ seeds) (hs2 : s2 ∈ seeds) (hne : s1.name ≠ s2.name) :
    ∀ (gens : ℕ) (ranking : List (TPlayer × ℚ)),
      (Evolution.play genScores R seeds gens ranking).1 = gens := by
  intro gens
  induction gens with
  | zero => intro ranking; rfl
  | succ m ih =>
      intro ranking
      simp only [Evolution.play]
      have hk1 := count_strategies_has_seed_key
        ((Evolution.natural_selection R (genScores (ranking.map Prod.fst))).map Prod.fst)
        seeds s1 hs1
      have hk2 := count_strategies_has_seed_key
        ((Evolution.natural_selection R (genScores (ranking.map Prod.fst))).map Prod.fst)
        seeds s2 hs2
      have hlen := two_keys_length_two _ _ _ hk1 hk2 hne
      rw [if_neg (by omega)]
      simp [ih]

/-- Witness for C6 amended: the counterexample roster, two generations. -/
theorem C6_witness :
    (⟨"A", []⟩ : TPlayer) ∈ ([⟨"A", []⟩, ⟨"B", []⟩] : List TPlayer) ∧
    (⟨"B", []⟩ : TPlayer) ∈ ([⟨"A", []⟩, ⟨"B", []⟩] : List TPlayer) ∧
    (⟨"A", []⟩ : TPlayer).name ≠ (⟨"B", []⟩ : TPlayer).name ∧
    (Evolution.play (fun pop => pop.map (fun p => (p, (0 : ℚ)))) 1
        [⟨"A", []⟩, ⟨"B", []⟩] 2 [(⟨"A", []⟩, 0)]).1 = 2 :=
  ⟨by decide, by decide, by decide,
    C6_early_stop_only_single_archetype (fun pop => pop.map (fun p => (p, (0 : ℚ)))) 1
      [⟨"A", []⟩, ⟨"B", []⟩] ⟨"A", []⟩ ⟨"B", []⟩ (by decide) (by decide) (by decide) 2
      [(⟨"A", []⟩, 0)]⟩

/-! ## Claim C10 -/

/-- Claim C10: when `initial_population` is a single integer `P` and there are
`k ≥ 1` seed archetypes, every archetype receives exactly `floor(P / k)`
individuals, the list has one entry per archetype, the total population is
`k * floor(P / k)`, and the remainder `P mod k` is dropped (total + remainder
recovers `P`). -/
theorem C10_initial_population_split (P k : ℕ) (_hk : 1 ≤ k) :
    (∀ c ∈ Evolution.initial_population_of_int P k, c = P / k) ∧
    (Evolution.initial_population_of_int P k).length = k ∧
    Evolution.total_population P k = k * (P / k) ∧
    Evolution.total_population P k + P % k = P := by
  have htot : Evolution.total_population P k = k * (P / k) := by
    simp [Evolution.total_population, Evolution.initial_population_of_int,
      List.sum_replicate, smul_eq_mul]
  refine ⟨fun c hc => List.eq_of_mem_replicate hc, ?_, htot, ?_⟩
  · simp [Evolution.initial_population_of_int]
  · rw [htot]
    exact Nat.div_add_mod P k

/-- Witness for C10: `P = 10` split over `k = 3` archetypes gives `[3, 3, 3]`,
total `9`, dropping the remainder `1`. -/
theorem C10_witness :
    1 ≤ 3 ∧
    ((∀ c ∈ Evolution.initial_population_of_int 10 3, c = 10 / 3) ∧
    (Evolution.initial_population_of_int 10 3).length = 3 ∧
    Evolution.total_population 10 3 = 3 * (10 / 3) ∧
    Evolution.total_population 10 3 + 10 % 3 = 10) :=
  ⟨by decide, C10_initial_population_split 10 3 (by decide)⟩

end LimitedSum
